import Mathlib

/-!
Verification of the Fraim-Context-MCP search service core against its
specification.  The Python source under `src/fraim_mcp` is shallowly
embedded: pure helpers become Lean functions, the async orchestrator
becomes an explicit function from an environment (database contents,
cache state, external collaborators) to an `Except`-valued outcome plus
an effect trace, and Python exceptions become an explicit error type.
External collaborators (the embedding backend, the FlashRank scoring
model, the storage engine's fused scoring) are parameters of the model,
exactly as the spec treats them (black boxes at their interface).
-/

set_option maxRecDepth 10000

namespace FraimMcp

/-! ## Decimal rendering of integers

Models Python `str(int)` / f-string interpolation of a non-negative
integer, used by `generate_cache_key` for the corpus version. -/

/-- One decimal digit character (for digit values 0–9). -/
def decDigitChar (d : Nat) : Char :=
  match d with
  | 0 => '0' | 1 => '1' | 2 => '2' | 3 => '3' | 4 => '4'
  | 5 => '5' | 6 => '6' | 7 => '7' | 8 => '8' | _ => '9'

/-- Little-endian decimal digit list of a natural number, with explicit
fuel so that the kernel can evaluate it. -/
def decDigitsRevGo (fuel n : Nat) : List Char :=
  match fuel with
  | 0 => []
  | fuel + 1 =>
    if n < 10 then [decDigitChar n]
    else decDigitChar (n % 10) :: decDigitsRevGo fuel (n / 10)

/-- Little-endian decimal digit list of a natural number. -/
def decDigitsRev (n : Nat) : List Char := decDigitsRevGo (n + 1) n

/-- Decimal string of a natural number, modelling Python `str(int)`. -/
def natStr (n : Nat) : String := String.mk (decDigitsRev n).reverse

/-- Value of a little-endian decimal digit list; inverse used to prove
`natStr` injective. -/
def decValRev : List Char → Nat
  | [] => 0
  | c :: r => (c.toNat - 48) + 10 * decValRev r

/-! ## UTF-8 encoding

Models Python `str.encode()` (UTF-8): each character becomes 1–4 bytes
depending on its code point. -/

/-- UTF-8 bytes of a single character. -/
def charUtf8 (c : Char) : List Nat :=
  let n := c.toNat
  if n < 128 then [n]
  else if n < 2048 then [192 ||| (n >>> 6), 128 ||| (n &&& 63)]
  else if n < 65536 then
    [224 ||| (n >>> 12), 128 ||| ((n >>> 6) &&& 63), 128 ||| (n &&& 63)]
  else
    [240 ||| (n >>> 18), 128 ||| ((n >>> 12) &&& 63),
     128 ||| ((n >>> 6) &&& 63), 128 ||| (n &&& 63)]

/-- UTF-8 byte sequence of a string (Python `s.encode()`). -/
def utf8Bytes (s : String) : List Nat := s.data.flatMap charUtf8

/-! ## SHA-256

A direct embedding of FIPS 180-4 SHA-256 (what Python `hashlib.sha256`
computes), over byte lists as `Nat` with explicit `% 2^32` masking. -/

/-- Truncate to a 32-bit word. -/
def w32 (x : Nat) : Nat := x % 4294967296

/-- 32-bit modular addition. -/
def add32 (a b : Nat) : Nat := (a + b) % 4294967296

/-- Right rotation of a 32-bit word. -/
def rotr (n x : Nat) : Nat := w32 ((x >>> n) ||| (x <<< (32 - n)))

def bigSigma0 (x : Nat) : Nat := rotr 2 x ^^^ rotr 13 x ^^^ rotr 22 x

def bigSigma1 (x : Nat) : Nat := rotr 6 x ^^^ rotr 11 x ^^^ rotr 25 x

def smallSigma0 (x : Nat) : Nat := rotr 7 x ^^^ rotr 18 x ^^^ (x >>> 3)

def smallSigma1 (x : Nat) : Nat := rotr 17 x ^^^ rotr 19 x ^^^ (x >>> 10)

def shaCh (x y z : Nat) : Nat := (x &&& y) ^^^ ((4294967295 ^^^ x) &&& z)

def shaMaj (x y z : Nat) : Nat := (x &&& y) ^^^ (x &&& z) ^^^ (y &&& z)

/-- The 64 SHA-256 round constants. -/
def shaK : List Nat :=
  [1116352408, 1899447441, 3049323471, 3921009573, 961987163,
   1508970993, 2453635748, 2870763221, 3624381080, 310598401,
   607225278, 1426881987, 1925078388, 2162078206, 2614888103,
   3248222580, 3835390401, 4022224774, 264347078, 604807628,
   770255983, 1249150122, 1555081692, 1996064986, 2554220882,
   2821834349, 2952996808, 3210313671, 3336571891, 3584528711,
   113926993, 338241895, 666307205, 773529912, 1294757372,
   1396182291, 1695183700, 1986661051, 2177026350, 2456956037,
   2730485921, 2820302411, 3259730800, 3345764771, 3516065817,
   3600352804, 4094571909, 275423344, 430227734, 506948616,
   659060556, 883997877, 958139571, 1322822218, 1537002063,
   1747873779, 1955562222, 2024104815, 2227730452, 2361852424,
   2428436474, 2756734187, 3204031479, 3329325298]

/-- Big-endian 8-byte encoding of the message bit length. -/
def be64 (n : Nat) : List Nat :=
  [(n >>> 56) &&& 255, (n >>> 48) &&& 255, (n >>> 40) &&& 255,
   (n >>> 32) &&& 255, (n >>> 24) &&& 255, (n >>> 16) &&& 255,
   (n >>> 8) &&& 255, n &&& 255]

/-- SHA-256 message padding: append 0x80, zeros to 56 mod 64, then the
bit length as 8 big-endian bytes. -/
def padMessage (ms : List Nat) : List Nat :=
  let L := ms.length
  ms ++ [128] ++ List.replicate ((119 - (L % 64)) % 64) 0 ++ be64 (8 * L)

/-- Split a byte list into 64-byte blocks (fuel-based recursion). -/
def chunksGo (fuel : Nat) (l : List Nat) : List (List Nat) :=
  match fuel, l with
  | 0, _ => []
  | _, [] => []
  | fuel + 1, l => l.take 64 :: chunksGo fuel (l.drop 64)

def chunks64 (l : List Nat) : List (List Nat) := chunksGo l.length l

/-- Group big-endian bytes into 32-bit words. -/
def toWords : List Nat → List Nat
  | b0 :: b1 :: b2 :: b3 :: rest =>
    (((b0 * 256 + b1) * 256 + b2) * 256 + b3) :: toWords rest
  | _ => []

/-- Extend 16 message-schedule words to 64. -/
def schedule (ws : List Nat) : List Nat :=
  (List.range 48).foldl
    (fun w _ =>
      let n := w.length
      w ++ [add32 (add32 (w.getD (n - 16) 0) (smallSigma0 (w.getD (n - 15) 0)))
              (add32 (w.getD (n - 7) 0) (smallSigma1 (w.getD (n - 2) 0)))])
    ws

/-- The eight working variables of the compression function. -/
structure H8 where
  a : Nat
  b : Nat
  c : Nat
  d : Nat
  e : Nat
  f : Nat
  g : Nat
  h : Nat

/-- SHA-256 initial hash value. -/
def shaH0 : H8 :=
  { a := 1779033703, b := 3144134277, c := 1013904242, d := 2773480762,
    e := 1359893119, f := 2600822924, g := 528734635, h := 1541459225 }

/-- One round of the SHA-256 compression function. -/
def compressRound (w k : Nat) (s : H8) : H8 :=
  let t1 := add32 (add32 (add32 s.h (bigSigma1 s.e)) (add32 (shaCh s.e s.f s.g) k)) w
  let t2 := add32 (bigSigma0 s.a) (shaMaj s.a s.b s.c)
  { a := add32 t1 t2, b := s.a, c := s.b, d := s.c,
    e := add32 s.d t1, f := s.e, g := s.f, h := s.g }

/-- Process one 64-byte block. -/
def compressBlock (s : H8) (block : List Nat) : H8 :=
  let w := schedule (toWords block)
  let t := (List.range 64).foldl
    (fun st i => compressRound (w.getD i 0) (shaK.getD i 0) st) s
  { a := add32 s.a t.a, b := add32 s.b t.b, c := add32 s.c t.c,
    d := add32 s.d t.d, e := add32 s.e t.e, f := add32 s.f t.f,
    g := add32 s.g t.g, h := add32 s.h t.h }

/-- Decompose a 32-bit word into 4 big-endian bytes. -/
def wordBytes (w : Nat) : List Nat :=
  [(w >>> 24) &&& 255, (w >>> 16) &&& 255, (w >>> 8) &&& 255, w &&& 255]

/-- SHA-256 digest (32 bytes) of a byte list; models
`hashlib.sha256(data).digest()`. -/
def sha256 (ms : List Nat) : List Nat :=
  let fin := (chunks64 (padMessage ms)).foldl compressBlock shaH0
  [fin.a, fin.b, fin.c, fin.d, fin.e, fin.f, fin.g, fin.h].flatMap wordBytes

/-- The sixteen lowercase hexadecimal digit characters. -/
def hexDigitChars : List Char := "0123456789abcdef".data

/-- Two hex characters of one byte. -/
def byteHex (b : Nat) : List Char :=
  [hexDigitChars.getD ((b / 16) % 16) '0', hexDigitChars.getD (b % 16) '0']

/-- Hex rendering of a byte list; models `.hexdigest()`. -/
def hexdigest (bytes : List Nat) : List Char := bytes.flatMap byteHex

/-- First 16 hex characters of the SHA-256 of the UTF-8 encoded query:
`hashlib.sha256(query.encode()).hexdigest()[:16]`. -/
def queryHash16 (query : String) : String :=
  String.mk ((hexdigest (sha256 (utf8Bytes query))).take 16)

/-- Embeds `generate_cache_key` from `fraim_mcp/cache/redis_client.py`:
`f"fraim:{project_id}:v{corpus_version}:search:{query_hash}"` with
`query_hash = hashlib.sha256(query.encode()).hexdigest()[:16]`. -/
def generate_cache_key (project_id : String) (corpus_version : Nat)
    (query : String) : String :=
  "fraim:" ++ project_id ++ ":v" ++ natStr corpus_version ++ ":search:" ++
    queryHash16 query

/-! ## Python-style values and dict-shaped documents

The reranker and the orchestrator pass candidate documents around as
Python dicts with string keys.  `PyVal` models the values that occur;
`Doc` models such a dict as an association list (only lookups are ever
observed). -/

/-- A Python value as it occurs in candidate documents. -/
inductive PyVal where
  | str (s : String)
  | num (q : ℚ)
  | none
deriving DecidableEq, Repr

/-- A Python dict with string keys. -/
def Doc : Type := List (String × PyVal)

instance : DecidableEq Doc := by unfold Doc; infer_instance

/-- Dict lookup (`d.get(k)`), `Option.none` when the key is absent. -/
def dget? (d : Doc) (k : String) : Option PyVal :=
  (d.find? (fun p => decide (p.1 = k))).map (fun p => p.2)

/-- Dict lookup with default (`d.get(k, v)`). -/
def dgetD (d : Doc) (k : String) (v : PyVal) : PyVal := (dget? d k).getD v

/-- Dict update (`d[k] = v`): replaces any existing binding of `k`. -/
def dset (d : Doc) (k : String) (v : PyVal) : Doc :=
  (k, v) :: d.filter (fun p => decide (p.1 ≠ k))

/-- Python truthiness of a `PyVal` (`None`, `""` and `0` are falsy). -/
def truthy (v : PyVal) : Bool :=
  match v with
  | .str s => decide (s ≠ "")
  | .num q => decide (q ≠ 0)
  | .none => false

/-- Python `a or b`: `a` when truthy, else `b`. -/
def pyOr (a b : PyVal) : PyVal := if truthy a then a else b

/-- String content of a `PyVal` (identity on strings). -/
def asStr (v : PyVal) : String :=
  match v with
  | .str s => s
  | _ => ""

/-- Numeric content of a `PyVal` (identity on numbers). -/
def asNum (v : PyVal) : ℚ :=
  match v with
  | .num q => q
  | _ => 0

/-- Association-list lookup (Python dict read). -/
def alGet {κ α : Type} [DecidableEq κ] (l : List (κ × α)) (k : κ) : Option α :=
  (l.find? (fun p => decide (p.1 = k))).map (fun p => p.2)

/-- Association-list overwrite (Python dict write, last write wins). -/
def alSet {κ α : Type} [DecidableEq κ] (l : List (κ × α)) (k : κ) (v : α) :
    List (κ × α) :=
  (k, v) :: l.filter (fun p => decide (p.1 ≠ k))

/-! ## Errors

Python exceptions, split by the only distinction the HTTP boundary makes
(`except ValueError` versus `except Exception` in
`server/http_server.py`). -/

/-- A raised Python exception: a `ValueError` or any other exception. -/
inductive PyError where
  | valueError (msg : String)
  | exc (msg : String)
deriving DecidableEq, Repr

/-- Decidable equality of `Except` outcomes, so that concrete runs can
be checked by evaluation. -/
instance {ε α : Type} [DecidableEq ε] [DecidableEq α] : DecidableEq (Except ε α) :=
  fun a b =>
    match a, b with
    | .error e1, .error e2 =>
      if h : e1 = e2 then .isTrue (by rw [h])
      else .isFalse (by intro hh; cases hh; exact h rfl)
    | .ok a1, .ok a2 =>
      if h : a1 = a2 then .isTrue (by rw [h])
      else .isFalse (by intro hh; cases hh; exact h rfl)
    | .error _, .ok _ => .isFalse (by intro hh; cases hh)
    | .ok _, .error _ => .isFalse (by intro hh; cases hh)

/-- Exception-propagating map over a list (a Python list comprehension
whose body may raise). -/
def mapEx {α β : Type} (f : α → Except PyError β) : List α → Except PyError (List β)
  | [] => .ok []
  | x :: r =>
    match f x with
    | .error e => .error e
    | .ok y =>
      match mapEx f r with
      | .error e => .error e
      | .ok ys => .ok (y :: ys)

/-! ## Reranker (`fraim_mcp/retrieval/reranker.py`)

The FlashRank model is an external collaborator: it is a parameter
`ranker` taking the query and prepared passages and returning scored
results (or raising).  Its result entries are read back with
`result.get("id") or result.get("passage", {}).get("id")` and
`result.get("score", 0.0)`, modelled by the fields of `RRes`. -/

/-- A passage handed to FlashRank: `{"id": ..., "text": ...}`. -/
structure Passage where
  id : PyVal
  text : PyVal
deriving DecidableEq, Repr

/-- One FlashRank result as the code reads it: `idVal` models
`result.get("id")`, `passageIdVal` models
`result.get("passage", {}).get("id")` and `score` models
`result.get("score", 0.0)` (each `PyVal.none` / `0` when absent). -/
structure RRes where
  idVal : PyVal := .none
  passageIdVal : PyVal := .none
  score : ℚ := 0
deriving DecidableEq, Repr

/-- The FlashRank scoring model, as a black-box parameter. -/
def Ranker : Type := String → List Passage → Except PyError (List RRes)

/-- The dict key under which a document is indexed for the rerank
round-trip: `doc.get("id", str(i))`. -/
def docKey (i : Nat) (doc : Doc) : PyVal :=
  (dget? doc "id").getD (.str (natStr i))

/-- Embeds `Reranker.rerank`: prepares passages, invokes the scoring
model, maps scored results back to the original documents (adding
`rerank_score`), truncated to `top_k`.  An empty candidate list returns
immediately, before the model is touched. -/
def Reranker.rerank (ranker : Ranker) (query : String) (documents : List Doc)
    (top_k : Nat) : Except PyError (List Doc) :=
  if documents.isEmpty then .ok []
  else
    match ranker query (documents.enum.map
      (fun p => { id := docKey p.1 p.2, text := dgetD p.2 "content" (.str "") : Passage })) with
    | .error e => .error e
    | .ok results =>
      .ok ((results.take top_k).filterMap (fun r =>
        (alGet (documents.enum.foldl (fun m p => alSet m (docKey p.1 p.2) p.2) [])
          (pyOr r.idVal r.passageIdVal)).map
          (fun doc => dset doc "rerank_score" (.num r.score))))

/-! ## Data model (`fraim_mcp/database/models.py` and the storage rows) -/

/-- A tenant (`projects` row): durable id, slug, corpus version. -/
structure Project where
  id : String
  slug : String
  corpus_version : Nat
deriving DecidableEq, Repr

/-- A document row. -/
structure Document where
  id : String
  project_id : String
  path : String
  title : Option String
  category : String
deriving DecidableEq, Repr

/-- A chunk row (embedding not carried: fused scoring is a black box). -/
structure Chunk where
  id : String
  document_id : String
  project_id : String
  content : String
  chunk_index : Nat
deriving DecidableEq, Repr

/-- The storage engine's visible contents. -/
structure Db where
  projects : List Project
  documents : List Document
  chunks : List Chunk
deriving Repr

/-- A single search result chunk (`ChunkResult` pydantic model). -/
structure ChunkResult where
  id : String
  document_id : String
  content : String
  score : ℚ
  document_path : String
  document_title : Option String := Option.none
  category : String := "general"
  chunk_index : Nat
  metadata : List (String × PyVal) := []
deriving DecidableEq, Repr

/-- Search request parameters (`SearchRequest` pydantic model). -/
structure SearchRequest where
  query : String
  project_id : String
  top_k : Nat := 5
  category : Option String := Option.none
  use_reranker : Bool := true
  include_metadata : Bool := false
deriving DecidableEq, Repr

/-- Search response (`SearchResponse` pydantic model); `latency_ms` is
wall-clock time, fixed to `0` in this timeless embedding. -/
structure SearchResponse where
  results : List ChunkResult
  query : String
  project_id : String
  total_found : Nat
  latency_ms : Nat
  cache_hit : Bool := false
  corpus_version : Nat
deriving DecidableEq, Repr

/-! ## Cache (`fraim_mcp/cache/redis_client.py`)

The Redis server is modelled as an optional connection that is either
reachable (a key-value store) or not; every operation on an unreachable
connection stands for the `except Exception` paths of `get`/`set`. -/

/-- A cached search payload (the JSON value round-trips identically). -/
structure CacheEntry where
  results : List ChunkResult
  total_found : Nat
deriving DecidableEq, Repr

/-- The underlying Redis connection: unreachable models every failing
network call. -/
structure CacheConn where
  reachable : Bool
  store : List (String × CacheEntry)
deriving DecidableEq, Repr

/-- The cache client (`self._client` may be `None` before `connect`). -/
structure CacheClient where
  conn : Option CacheConn
deriving DecidableEq, Repr

/-- Embeds `CacheClient.get`: `None` without a client, `None` on any
failure, else the deserialized stored value. -/
def CacheClient.get (c : CacheClient) (key : String) : Option CacheEntry :=
  match c.conn with
  | Option.none => Option.none
  | Option.some conn =>
    if conn.reachable then alGet conn.store key else Option.none

/-- Embeds `CacheClient.set`: `False` without a client or on any
failure, else stores the value and returns `True`.  The updated client
is returned alongside. -/
def CacheClient.set (c : CacheClient) (key : String) (v : CacheEntry) :
    CacheClient × Bool :=
  match c.conn with
  | Option.none => (c, false)
  | Option.some conn =>
    if conn.reachable then
      ({ conn := Option.some { conn with store := alSet conn.store key v } }, true)
    else (c, false)

/-! ## Embeddings (`fraim_mcp/ingestion/embeddings.py`) -/

/-- The hard-contract embedding dimension (`EmbeddingClient.DIMENSION`). -/
def EmbeddingClient.DIMENSION : Nat := 1024

/-- The external embedding backend (LiteLLM `aembedding`): returns the
raw vector of `response.data[0]["embedding"]`, or raises. -/
def Provider : Type := String → Except PyError (List ℚ)

/-- Embeds `EmbeddingClient.embed`: calls the provider and enforces the
1024-dimension hard contract, raising `ValueError` on any other length
(never truncating or padding). -/
def EmbeddingClient.embed (provider : Provider) (text : String) :
    Except PyError (List ℚ) :=
  match provider text with
  | .error e => .error e
  | .ok embedding =>
    if embedding.length ≠ EmbeddingClient.DIMENSION then
      .error (.valueError ("HARD CONTRACT VIOLATION: Expected " ++
        natStr EmbeddingClient.DIMENSION ++ " dims, got " ++
        natStr embedding.length ++ ". Check embedding model."))
    else .ok embedding

/-! ## Tenant resolution (`SearchService._get_project_info`) -/

/-- Models Python `uuid.UUID(s)` used for the id-form fallback lookup,
approximated as accepting exactly the canonical 36-character form
(raising `ValueError` otherwise, which the caller catches or
propagates). -/
def uuidParse? (s : String) : Option String :=
  if s.length = 36 then Option.some s else Option.none

/-- Embeds `_get_project_info`: slug lookup first, then, when the input
parses as a UUID, an id lookup; raises `ValueError("Project not
found: ...")` when neither succeeds. -/
def getProjectInfo (db : Db) (project_id : String) : Except PyError Project :=
  match db.projects.find? (fun p => decide (p.slug = project_id)) with
  | Option.some p => .ok p
  | Option.none =>
    match uuidParse? project_id with
    | Option.some u =>
      match db.projects.find? (fun p => decide (p.id = u)) with
      | Option.some p => .ok p
      | Option.none => .error (.valueError ("Project not found: " ++ project_id))
    | Option.none => .error (.valueError ("Project not found: " ++ project_id))

/-! ## Hybrid search (storage-side, spec-modelled)

The SQL function `hybrid_search` lives in `scripts/init_db.sql`, which
is not part of the sources; only its call site is
(`SELECT * FROM hybrid_search($1,$2,$3,$4,$5)` with the resolved
project id, the query embedding, the raw query, `top_k * 2` and the
category filter). -/

/-- One row returned by `hybrid_search`. -/
structure HRow where
  chunk_id : String
  document_id : String
  content : String
  score : Option ℚ
deriving DecidableEq, Repr

/-- Whether a chunk passes the document-category filter. -/
def categoryOk (db : Db) (c : Chunk) (category : Option String) : Bool :=
  match category with
  | Option.none => true
  | Option.some cat =>
    match db.documents.find? (fun d => decide (d.id = c.document_id)) with
    | Option.some d => decide (d.category = cat)
    | Option.none => false

/-- Modelled from the spec: the body of the stored SQL function
`hybrid_search` (in `scripts/init_db.sql`, absent from the sources) —
per spec §4.4 it ranks only the given tenant's chunks (category filter
applied before fusion), attaches a fused score per candidate and
returns at most `limit` rows; the fusion formula itself is delegated to
the storage engine (spec §9 open question) and is therefore the
black-box parameter `score`. -/
def hybrid_search (db : Db) (score : Chunk → ℚ) (project_uuid : String)
    (limit : Nat) (category : Option String) : List HRow :=
  ((db.chunks.filter
      (fun c => decide (c.project_id = project_uuid) && categoryOk db c category)).map
    (fun c => { chunk_id := c.id, document_id := c.document_id,
                content := c.content, score := Option.some (score c) : HRow })).take limit

/-- Embeds the row-to-dict conversion in `SearchService.search`:
`{"id": str(chunk_id), "document_id": str(document_id), "content": ...,
"score": float(score) if score else 0.0}`. -/
def rowToDoc (row : HRow) : Doc :=
  [("id", .str row.chunk_id), ("document_id", .str row.document_id),
   ("content", .str row.content),
   ("score", .num (match row.score with
     | Option.some s => s
     | Option.none => 0))]

/-! ## Chunk-metadata batch lookup (`SearchService.search`, second query)

`SELECT c.id, d.path, d.title, d.category FROM chunks c JOIN documents d
ON c.document_id = d.id WHERE c.id = ANY($1)` — keyed by the selected
chunk ids only, not by tenant. -/

/-- One row of the metadata join. -/
structure ChunkInfoRow where
  id : String
  path : String
  title : Option String
  category : String
deriving DecidableEq, Repr

/-- The metadata join: chunks among `chunk_ids` inner-joined with their
parent document. -/
def chunkInfoQuery (db : Db) (chunk_ids : List String) : List ChunkInfoRow :=
  (db.chunks.filter (fun c => chunk_ids.contains c.id)).filterMap
    (fun c =>
      match db.documents.find? (fun d => decide (d.id = c.document_id)) with
      | Option.some d =>
        Option.some { id := c.id, path := d.path, title := d.title,
                      category := d.category : ChunkInfoRow }
      | Option.none => Option.none)

/-- `chunk_map = {str(row["id"]): row for row in chunk_info}`. -/
def buildChunkMap (rows : List ChunkInfoRow) : List (String × ChunkInfoRow) :=
  rows.foldl (fun m r => alSet m r.id r) []

/-- `doc.get("rerank_score", doc.get("score", 0.0))`. -/
def docScore (doc : Doc) : ℚ :=
  asNum (dgetD doc "rerank_score" (dgetD doc "score" (.num 0)))

/-- `UUID(doc["id"])`, raising on a malformed id. -/
def parseDocUuid (doc : Doc) (field : String) : Except PyError String :=
  match uuidParse? (asStr (dgetD doc field (.str ""))) with
  | Option.some u => .ok u
  | Option.none => .error (.valueError "badly formed hexadecimal UUID string")

/-- Embeds the result assembly loop of `SearchService.search`: each
selected document dict becomes a `ChunkResult` with path/title/category
resolved through `chunk_map` (defaults `""` / `None` / `"general"`) and
`chunk_index` hard-coded to `0` (source comment: "Could be added to
query if needed"). -/
def buildResult (chunk_map : List (String × ChunkInfoRow)) (doc : Doc) :
    Except PyError ChunkResult :=
  match parseDocUuid doc "id", parseDocUuid doc "document_id" with
  | .ok cid, .ok did =>
    let r := match alGet chunk_map (asStr (dgetD doc "id" (.str ""))) with
      | Option.some info => (info.path, info.title, info.category)
      | Option.none => ("", Option.none, "general")
    .ok { id := cid, document_id := did,
          content := asStr (dgetD doc "content" (.str "")),
          score := docScore doc,
          document_path := r.1, document_title := r.2.1, category := r.2.2,
          chunk_index := 0, metadata := [] }
  | .error e, _ => .error e
  | _, .error e => .error e

/-! ## The search orchestrator (`SearchService.search`) -/

/-- An observable effect of one search request. -/
inductive Ev where
  | embedCall (query : String)
  | hybridCall (project_uuid : String) (limit : Nat)
  | rerankCall (top_k : Nat)
  | metaLookup (chunk_ids : List String)
  | cacheSetEv (key : String)
deriving DecidableEq, Repr

/-- The environment of one request: storage contents, cache state and
the external collaborators (embedding backend, FlashRank model, the
storage engine's fused scoring), plus an optional injected storage
failure (a raised driver exception on the search queries). -/
structure Ctx where
  db : Db
  cache : CacheClient
  provider : Provider
  ranker : Ranker
  fusedScore : List ℚ → String → Chunk → ℚ
  dbError : Option PyError := Option.none

/-- The cache-miss tail of `SearchService.search` (everything after the
cache read returned nothing): embed, hybrid search, optional rerank,
metadata batch lookup, result assembly, cache write, fresh response. -/
def searchMiss (ctx : Ctx) (req : SearchRequest) (project_uuid : String)
    (corpus_version : Nat) (cache_key : String) :
    Except PyError (SearchResponse × CacheClient × List Ev) :=
  match EmbeddingClient.embed ctx.provider req.query with
  | .error e => .error e
  | .ok query_embedding =>
    match ctx.dbError with
    | Option.some e => .error e
    | Option.none =>
      let rows := hybrid_search ctx.db (ctx.fusedScore query_embedding req.query)
        project_uuid (req.top_k * 2) req.category
      let documents := rows.map rowToDoc
      let reranked : Except PyError (List Doc × List Ev) :=
        if req.use_reranker && !documents.isEmpty then
          match Reranker.rerank ctx.ranker req.query documents req.top_k with
          | .error e => .error e
          | .ok ds => .ok (ds, [Ev.rerankCall req.top_k])
        else .ok (documents.take req.top_k, ([] : List Ev))
      match reranked with
      | .error e => .error e
      | .ok (documents2, rerankEvs) =>
        match mapEx (fun doc => parseDocUuid doc "id") documents2 with
        | .error e => .error e
        | .ok chunk_ids =>
          let chunk_map := buildChunkMap (chunkInfoQuery ctx.db chunk_ids)
          match mapEx (buildResult chunk_map) documents2 with
          | .error e => .error e
          | .ok results =>
            let cache_data : CacheEntry :=
              { results := results, total_found := rows.length }
            let setRes := CacheClient.set ctx.cache cache_key cache_data
            .ok ({ results := results, query := req.query,
                   project_id := req.project_id,
                   total_found := rows.length, latency_ms := 0,
                   cache_hit := false, corpus_version := corpus_version },
                 setRes.1,
                 [Ev.embedCall req.query,
                  Ev.hybridCall project_uuid (req.top_k * 2)] ++ rerankEvs ++
                 [Ev.metaLookup chunk_ids, Ev.cacheSetEv cache_key])

/-- Embeds `SearchService.search`: resolve the tenant, derive the cache
key from the caller-supplied project id, read the cache; on a hit,
rebuild the response from the stored entry; on a miss, run the full
pipeline (`searchMiss`).  Returns the response, the cache client after
any write, and the trace of collaborator calls. -/
def SearchService.search (ctx : Ctx) (req : SearchRequest) :
    Except PyError (SearchResponse × CacheClient × List Ev) :=
  match getProjectInfo ctx.db req.project_id with
  | .error e => .error e
  | .ok project_info =>
    let cache_key := generate_cache_key req.project_id
      project_info.corpus_version req.query
    match CacheClient.get ctx.cache cache_key with
    | Option.some cached =>
      .ok ({ results := cached.results, query := req.query,
             project_id := req.project_id,
             total_found := cached.total_found, latency_ms := 0,
             cache_hit := true, corpus_version := project_info.corpus_version },
           ctx.cache, [])
    | Option.none =>
      searchMiss ctx req project_info.id project_info.corpus_version cache_key

/-! ## HTTP boundary (`server/http_server.py`, `/api/v1/search`) -/

/-- Outcome of the HTTP search endpoint: a 200 with a response body, or
an error status with a detail string. -/
inductive HttpOutcome where
  | success (resp : SearchResponse)
  | failure (status : Nat) (detail : String)
deriving DecidableEq, Repr

/-- Embeds the `/api/v1/search` handler: `except ValueError` becomes
`HTTPException(404)`, any other exception becomes
`HTTPException(500)`. -/
def httpSearch (ctx : Ctx) (req : SearchRequest) : HttpOutcome :=
  match SearchService.search ctx req with
  | .ok r => .success r.1
  | .error (.valueError m) => .failure 404 m
  | .error (.exc m) => .failure 500 m

/-- The HTTP status of an outcome (200 on success). -/
def HttpOutcome.status : HttpOutcome → Nat
  | .success _ => 200
  | .failure s _ => s

/-! ## Concrete fixtures

A small two-tenant corpus and stub collaborators, used to evaluate the
theorems on closed inputs. -/

def projA : Project :=
  { id := "00000000-0000-0000-0000-00000000000a", slug := "proj-a", corpus_version := 1 }

def projB : Project :=
  { id := "00000000-0000-0000-0000-00000000000b", slug := "proj-b", corpus_version := 3 }

def docA : Document :=
  { id := "00000000-0000-0000-0000-0000000000d1", project_id := projA.id,
    path := "docs/a.md", title := Option.some "A", category := "general" }

def docB : Document :=
  { id := "00000000-0000-0000-0000-0000000000d2", project_id := projB.id,
    path := "docs/b.md", title := Option.none, category := "general" }

def chunkA : Chunk :=
  { id := "00000000-0000-0000-0000-0000000000c1", document_id := docA.id,
    project_id := projA.id, content := "alpha content", chunk_index := 1 }

def chunkB : Chunk :=
  { id := "00000000-0000-0000-0000-0000000000c2", document_id := docB.id,
    project_id := projB.id, content := "beta content", chunk_index := 0 }

def sampleDb : Db :=
  { projects := [projA, projB], documents := [docA, docB], chunks := [chunkA, chunkB] }

/-- A well-behaved embedding backend (returns a 1024-vector). -/
def okProvider : Provider := fun _ => .ok (List.replicate 1024 (0 : ℚ))

/-- An embedding backend returning a wrong-dimension vector. -/
def shortProvider : Provider := fun _ => .ok [1, 2, 3]

/-- A failing embedding backend (non-`ValueError` exception). -/
def downProvider : Provider := fun _ => .error (.exc "APIConnectionError")

/-- A well-behaved scoring model: echoes each passage with score 1/2. -/
def okRanker : Ranker :=
  fun _ ps => .ok (ps.map (fun p => { idVal := p.id, score := 1 }))

/-- A failing scoring model (non-`ValueError` exception). -/
def downRanker : Ranker := fun _ _ => .error (.exc "flashrank failure")

/-- An empty, reachable cache. -/
def emptyCache : CacheClient :=
  { conn := Option.some { reachable := true, store := [] } }

/-- An unreachable cache (every network call raises and is absorbed). -/
def deadCache : CacheClient :=
  { conn := Option.some { reachable := false, store := [] } }

def sampleCtx : Ctx :=
  { db := sampleDb, cache := emptyCache, provider := okProvider,
    ranker := okRanker, fusedScore := fun _ _ _ => 1 }

def sampleReq : SearchRequest := { query := "q", project_id := "proj-a" }

/-- A cache prefilled with an entry for the sample request's key. -/
def hitCache : CacheClient :=
  { conn := Option.some
      { reachable := true,
        store := [(generate_cache_key "proj-a" 1 "q",
          { results := [], total_found := 7 })] } }

/-- The result row produced by the sample search. -/
def sampleResult : ChunkResult :=
  { id := "00000000-0000-0000-0000-0000000000c1",
    document_id := "00000000-0000-0000-0000-0000000000d1",
    content := "alpha content", score := 1, document_path := "docs/a.md",
    document_title := Option.some "A", category := "general",
    chunk_index := 0, metadata := [] }

/-- The cache key the sample search derives. -/
def sampleKey : String := "fraim:proj-a:v1:search:8e35c2cd3bf6641b"

/-- The full outcome of the sample search (response, cache after the
write, effect trace). -/
def sampleOut : SearchResponse × CacheClient × List Ev :=
  ({ results := [sampleResult], query := "q", project_id := "proj-a",
     total_found := 1, latency_ms := 0, cache_hit := false,
     corpus_version := 1 },
   { conn := Option.some
       { reachable := true,
         store := [(sampleKey, { results := [sampleResult], total_found := 1 })] } },
   [Ev.embedCall "q", Ev.hybridCall "00000000-0000-0000-0000-00000000000a" 10,
    Ev.rerankCall 5, Ev.metaLookup ["00000000-0000-0000-0000-0000000000c1"],
    Ev.cacheSetEv sampleKey])

/-- Big-endian numeric value of a byte list (accumulator form); used to
package a digest prefix into a finite codomain. -/
def bytesValGo (acc : Nat) : List Nat → Nat
  | [] => acc
  | b :: r => bytesValGo (acc * 256 + b) r

/-- Big-endian numeric value of a byte list. -/
def bytesVal (l : List Nat) : Nat := bytesValGo 0 l

/-! ## Theorems: decimal rendering -/

theorem decDigitChar_toNat (d : Nat) (hd : d < 10) :
    (decDigitChar d).toNat = 48 + d := by
  interval_cases d <;> rfl

theorem decValRev_decDigitsRevGo (fuel : Nat) :
    ∀ n, n < fuel → decValRev (decDigitsRevGo fuel n) = n := by
  induction fuel with
  | zero => intro n h; omega
  | succ fuel ih =>
    intro n h
    rw [decDigitsRevGo]
    by_cases h10 : n < 10
    · simp only [h10, if_pos, decValRev, decDigitChar_toNat n h10]
      omega
    · simp only [h10, if_neg, not_false_iff, decValRev]
      rw [decDigitChar_toNat (n % 10) (Nat.mod_lt _ (by omega)),
        ih (n / 10) (by omega)]
      omega

theorem decValRev_decDigitsRev (n : Nat) : decValRev (decDigitsRev n) = n :=
  decValRev_decDigitsRevGo (n + 1) n (Nat.lt_succ_self n)

theorem natStr_injective : Function.Injective natStr := by
  intro a b hab
  have h : (decDigitsRev a).reverse = (decDigitsRev b).reverse :=
    congrArg String.data hab
  have h2 : decDigitsRev a = decDigitsRev b := by
    have := congrArg List.reverse h
    simpa using this
  calc a = decValRev (decDigitsRev a) := (decValRev_decDigitsRev a).symm
    _ = decValRev (decDigitsRev b) := by rw [h2]
    _ = b := decValRev_decDigitsRev b

/-! ## Theorems: SHA-256 digest shape -/

theorem sha256_length (ms : List Nat) : (sha256 ms).length = 32 := by
  simp [sha256, wordBytes]

theorem sha256_bytes_lt (ms : List Nat) : ∀ b ∈ sha256 ms, b < 256 := by
  intro b hb
  simp only [sha256, List.mem_flatMap] at hb
  obtain ⟨w, -, hw⟩ := hb
  simp only [wordBytes, List.mem_cons, List.not_mem_nil, or_false] at hw
  rcases hw with h | h | h | h <;>
    exact h ▸ Nat.lt_succ_of_le Nat.and_le_right

theorem hexdigest_length (bs : List Nat) : (hexdigest bs).length = 2 * bs.length := by
  induction bs with
  | nil => rfl
  | cons b r ih =>
    simp only [hexdigest, List.flatMap_cons, List.length_append, List.length_cons] at *
    simp only [byteHex, List.length_cons, List.length_nil]
    omega

theorem hexdigest_append (xs ys : List Nat) :
    hexdigest (xs ++ ys) = hexdigest xs ++ hexdigest ys := by
  simp [hexdigest]

theorem hexdigest_take8 (d : List Nat) (hd : 8 ≤ d.length) :
    (hexdigest d).take 16 = hexdigest (d.take 8) := by
  have hsplit : d.take 8 ++ d.drop 8 = d := List.take_append_drop 8 d
  have hlen : (hexdigest (d.take 8)).length = 16 := by
    rw [hexdigest_length, List.length_take]
    omega
  conv_lhs => rw [← hsplit]
  rw [hexdigest_append, ← hlen, List.take_left]

theorem hexDigitChars_getD_mem (i : Nat) :
    hexDigitChars.getD (i % 16) '0' ∈ hexDigitChars := by
  have h16 : i % 16 < 16 := Nat.mod_lt _ (by omega)
  have : ∀ j, j < 16 → hexDigitChars.getD j '0' ∈ hexDigitChars := by decide
  exact this (i % 16) h16

theorem queryHash16_length (q : String) : (queryHash16 q).length = 16 := by
  show ((hexdigest (sha256 (utf8Bytes q))).take 16).length = 16
  rw [List.length_take, hexdigest_length, sha256_length]
  omega

theorem queryHash16_hex (q : String) :
    ∀ c ∈ (queryHash16 q).data, c ∈ hexDigitChars := by
  intro c hc
  have hc' : c ∈ hexdigest (sha256 (utf8Bytes q)) :=
    List.mem_of_mem_take hc
  simp only [hexdigest, List.mem_flatMap] at hc'
  obtain ⟨b, -, hb⟩ := hc'
  simp only [byteHex, List.mem_cons, List.not_mem_nil, or_false] at hb
  rcases hb with h | h
  · exact h ▸ hexDigitChars_getD_mem (b / 16)
  · exact h ▸ hexDigitChars_getD_mem b

/-! ## Theorems: cache keys -/

theorem cache_key_version_inj (p q : String) (v v' : Nat) (hne : v ≠ v') :
    generate_cache_key p v q ≠ generate_cache_key p v' q := by
  intro h
  have hd := congrArg String.data h
  simp only [generate_cache_key, String.data_append, List.append_assoc] at hd
  have h1 := List.append_cancel_left hd
  have h2 := List.append_cancel_left h1
  have h3 := List.append_cancel_left h2
  have h4 := List.append_cancel_right h3
  exact hne (natStr_injective (String.ext h4))

/-- C3: cache-key derivation is deterministic (it is a pure function of
the triple in this embedding) and produces exactly
`fraim:{project_id}:v{corpus_version}:search:{query_hash}` with
`query_hash` a 16-character hex digest of the query text, so every key
for one tenant-version extends the common prefix
`fraim:{project_id}:v{corpus_version}:search:`. -/
theorem cache_key_format (project_id : String) (corpus_version : Nat)
    (query : String) :
    ∃ query_hash : String,
      generate_cache_key project_id corpus_version query =
        "fraim:" ++ project_id ++ ":v" ++ natStr corpus_version ++ ":search:" ++
          query_hash ∧
      query_hash.length = 16 ∧
      (∀ c ∈ query_hash.data, c ∈ hexDigitChars) ∧
      (∀ q' : String,
        generate_cache_key project_id corpus_version q' =
          ("fraim:" ++ project_id ++ ":v" ++ natStr corpus_version ++ ":search:") ++
            queryHash16 q') := by
  refine ⟨queryHash16 query, rfl, queryHash16_length query, queryHash16_hex query,
    fun q' => rfl⟩

/-- Closed instantiation of `cache_key_format` at the concrete triple
from the repository's own cache test. -/
theorem cache_key_format_witness :
    ∃ query_hash : String,
      generate_cache_key "my-project" 42 "how does auth work" =
        "fraim:" ++ "my-project" ++ ":v" ++ natStr 42 ++ ":search:" ++ query_hash ∧
      query_hash.length = 16 ∧
      (∀ c ∈ query_hash.data, c ∈ hexDigitChars) ∧
      (∀ q' : String,
        generate_cache_key "my-project" 42 q' =
          ("fraim:" ++ "my-project" ++ ":v" ++ natStr 42 ++ ":search:") ++
            queryHash16 q') :=
  cache_key_format "my-project" 42 "how does auth work"

/-! ## Theorems: query-hash truncation pigeonhole -/

theorem bytesValGo_lt : ∀ (l : List Nat) (acc : Nat), (∀ b ∈ l, b < 256) →
    bytesValGo acc l < (acc + 1) * 256 ^ l.length := by
  intro l
  induction l with
  | nil => intro acc _; simp [bytesValGo]
  | cons b r ih =>
    intro acc hb
    have hbb : b < 256 := hb b (List.mem_cons_self b r)
    calc bytesValGo acc (b :: r) = bytesValGo (acc * 256 + b) r := rfl
      _ < (acc * 256 + b + 1) * 256 ^ r.length :=
        ih (acc * 256 + b) (fun x hx => hb x (List.mem_cons_of_mem b hx))
      _ ≤ ((acc + 1) * 256) * 256 ^ r.length :=
        Nat.mul_le_mul_right _ (by omega)
      _ = (acc + 1) * 256 ^ (b :: r).length := by
        rw [List.length_cons, pow_succ]; ring

theorem bytesValGo_inj : ∀ (l1 l2 : List Nat) (a1 a2 : Nat),
    l1.length = l2.length → (∀ b ∈ l1, b < 256) → (∀ b ∈ l2, b < 256) →
    bytesValGo a1 l1 = bytesValGo a2 l2 → a1 = a2 ∧ l1 = l2 := by
  intro l1
  induction l1 with
  | nil =>
    intro l2 a1 a2 hlen _ _ hv
    have : l2 = [] := List.length_eq_zero.mp hlen.symm
    subst this
    exact ⟨hv, rfl⟩
  | cons b1 r1 ih =>
    intro l2 a1 a2 hlen hb1 hb2 hv
    match l2, hlen with
    | b2 :: r2, hlen =>
      have hlen' : r1.length = r2.length := by
        simpa using hlen
      have h1 : b1 < 256 := hb1 b1 (List.mem_cons_self b1 r1)
      have h2 : b2 < 256 := hb2 b2 (List.mem_cons_self b2 r2)
      obtain ⟨hacc, hr⟩ := ih r2 (a1 * 256 + b1) (a2 * 256 + b2) hlen'
        (fun x hx => hb1 x (List.mem_cons_of_mem b1 hx))
        (fun x hx => hb2 x (List.mem_cons_of_mem b2 hx)) hv
      have hb : b1 = b2 := by omega
      have ha : a1 = a2 := by omega
      exact ⟨ha, by rw [hb, hr]⟩

theorem digest_take8_length (q : String) :
    ((sha256 (utf8Bytes q)).take 8).length = 8 := by
  rw [List.length_take, sha256_length]
  omega

theorem digest_take8_lt (q : String) :
    ∀ b ∈ (sha256 (utf8Bytes q)).take 8, b < 256 :=
  fun b hb => sha256_bytes_lt (utf8Bytes q) b (List.mem_of_mem_take hb)

theorem cache_key_of_digest_take8 (p : String) (v : Nat) (q1 q2 : String)
    (h : (sha256 (utf8Bytes q1)).take 8 = (sha256 (utf8Bytes q2)).take 8) :
    generate_cache_key p v q1 = generate_cache_key p v q2 := by
  have hq : queryHash16 q1 = queryHash16 q2 := by
    unfold queryHash16
    rw [hexdigest_take8 _ (by rw [sha256_length]; omega),
      hexdigest_take8 _ (by rw [sha256_length]; omega), h]
  simp [generate_cache_key, hq]

/-- C2 counterexample: it is not true that, tenant fixed, a different
query text always yields a different cache key — the key embeds only
the first 16 hex characters (8 bytes) of the query's SHA-256, a finite
codomain, while queries are infinitely many, so two distinct queries
must share a key. -/
theorem cache_key_query_not_injective :
    ¬ (∀ (p : String) (v : Nat) (q1 q2 : String), q1 ≠ q2 →
        generate_cache_key p v q1 ≠ generate_cache_key p v q2) := by
  intro hclaim
  obtain ⟨q1, q2, hne, hfe⟩ := Finite.exists_ne_map_eq_of_infinite
    (fun q : String =>
      (⟨bytesVal ((sha256 (utf8Bytes q)).take 8), by
        have h := bytesValGo_lt ((sha256 (utf8Bytes q)).take 8) 0 (digest_take8_lt q)
        rw [digest_take8_length q] at h
        simpa [bytesVal] using h⟩ : Fin (256 ^ 8)))
  apply hclaim "p" 1 q1 q2 hne
  have hval : bytesVal ((sha256 (utf8Bytes q1)).take 8) =
      bytesVal ((sha256 (utf8Bytes q2)).take 8) := congrArg Fin.val hfe
  have htake := (bytesValGo_inj _ _ 0 0
    (by rw [digest_take8_length, digest_take8_length])
    (digest_take8_lt q1) (digest_take8_lt q2) hval).2
  exact cache_key_of_digest_take8 "p" 1 q1 q2 htake

/-- C2 (amended): tenant and query fixed, a different corpus version
always yields a different key; consequently, after a tenant's corpus
version changes, a cache holding only the entry under the old version's
key misses for the new key (the old entry may still sit in the store).
Changing the query text yields a different key only with overwhelming
probability, not always (`cache_key_query_not_injective`). -/
theorem cache_key_version_invalidation (p q : String) (v v' : Nat)
    (hne : v' ≠ v) (e : CacheEntry) :
    generate_cache_key p v' q ≠ generate_cache_key p v q ∧
    CacheClient.get
      { conn := Option.some
          { reachable := true, store := [(generate_cache_key p v q, e)] } }
      (generate_cache_key p v' q) = Option.none := by
  have hk := cache_key_version_inj p q v' v hne
  refine ⟨hk, ?_⟩
  simp [CacheClient.get, alGet, List.find?, Ne.symm hk]

/-- Closed instantiation of `cache_key_version_invalidation`: version 1
cached, version 2 queried. -/
theorem cache_key_version_invalidation_witness :
    (2 ≠ 1) ∧
    (generate_cache_key "proj-a" 2 "q" ≠ generate_cache_key "proj-a" 1 "q" ∧
     CacheClient.get
       { conn := Option.some
           { reachable := true,
             store := [(generate_cache_key "proj-a" 1 "q",
               { results := [], total_found := 0 })] } }
       (generate_cache_key "proj-a" 2 "q") = Option.none) :=
  ⟨by decide, cache_key_version_invalidation "proj-a" "q" 1 2 (by decide)
    { results := [], total_found := 0 }⟩

/-! ## Theorems: embedding dimension hard contract -/

/-- C7: `EmbeddingClient.embed` returns exactly the provider's vector
and only when it has exactly 1024 dimensions; any other length raises
the `ValueError` integrity error (the vector is never truncated or
padded), and an embed failure on the cache-miss path aborts the whole
search with that error. -/
theorem embed_dimension_contract (provider : Provider) (text : String) :
    (∀ v, EmbeddingClient.embed provider text = .ok v →
      v.length = 1024 ∧ provider text = .ok v) ∧
    (∀ v, provider text = .ok v → v.length ≠ 1024 →
      EmbeddingClient.embed provider text = .error (.valueError
        ("HARD CONTRACT VIOLATION: Expected " ++ natStr 1024 ++ " dims, got " ++
          natStr v.length ++ ". Check embedding model."))) ∧
    (∀ (ctx : Ctx) (req : SearchRequest) (proj : Project) (e : PyError),
      getProjectInfo ctx.db req.project_id = .ok proj →
      CacheClient.get ctx.cache
        (generate_cache_key req.project_id proj.corpus_version req.query) =
        Option.none →
      EmbeddingClient.embed ctx.provider req.query = .error e →
      SearchService.search ctx req = .error e) := by
  refine ⟨?_, ?_, ?_⟩
  · intro v hv
    unfold EmbeddingClient.embed at hv
    split at hv
    · exact absurd hv (by simp)
    next emb heq =>
      split at hv
      · exact absurd hv (by simp)
      next hlen =>
        cases hv
        refine ⟨?_, heq⟩
        simpa [EmbeddingClient.DIMENSION] using hlen
  · intro v hv hlen
    unfold EmbeddingClient.embed
    rw [hv]
    simp [EmbeddingClient.DIMENSION, hlen]
  · intro ctx req proj e hproj hmiss hembed
    unfold SearchService.search
    rw [hproj]
    simp only [hmiss]
    unfold searchMiss
    rw [hembed]

/-- Closed instantiation of `embed_dimension_contract`: a 3-dimension
provider response aborts the concrete sample search with the integrity
`ValueError`. -/
theorem embed_dimension_contract_witness :
    (shortProvider "q" = .ok [1, 2, 3] ∧
     EmbeddingClient.embed shortProvider "q" = .error (.valueError
       ("HARD CONTRACT VIOLATION: Expected " ++ natStr 1024 ++ " dims, got " ++
         natStr ([1, 2, 3] : List ℚ).length ++ ". Check embedding model."))) ∧
    SearchService.search
      { sampleCtx with provider := shortProvider } sampleReq =
      .error (.valueError
        ("HARD CONTRACT VIOLATION: Expected " ++ natStr 1024 ++ " dims, got " ++
          natStr 3 ++ ". Check embedding model.")) := by
  have h2 := (embed_dimension_contract shortProvider "q").2.1 [1, 2, 3]
    rfl (by decide)
  refine ⟨⟨rfl, h2⟩, ?_⟩
  have h3 := (embed_dimension_contract shortProvider "q").2.2
    { sampleCtx with provider := shortProvider } sampleReq projA
    (.valueError ("HARD CONTRACT VIOLATION: Expected " ++ natStr 1024 ++
      " dims, got " ++ natStr 3 ++ ". Check embedding model."))
    rfl (by decide) rfl
  exact h3

/-! ## Theorems: association lists and dict updates -/

theorem alGet_mem {κ α : Type} [DecidableEq κ] (m : List (κ × α)) (k : κ)
    (v : α) (h : alGet m k = Option.some v) : ∃ p ∈ m, p.2 = v := by
  unfold alGet at h
  cases hf : m.find? (fun p => decide (p.1 = k)) with
  | none => rw [hf] at h; exact absurd h (by simp)
  | some p =>
    rw [hf] at h
    simp only [Option.map_some', Option.some_inj] at h
    exact ⟨p, List.mem_of_find?_eq_some hf, h⟩

theorem idToDoc_mem : ∀ (l : List (Nat × Doc)) (m : List (PyVal × Doc))
    (x : PyVal × Doc),
    x ∈ l.foldl (fun acc q => alSet acc (docKey q.1 q.2) q.2) m →
    x ∈ m ∨ ∃ q ∈ l, x.2 = q.2 := by
  intro l
  induction l with
  | nil => intro m x h; exact Or.inl h
  | cons q r ih =>
    intro m x h
    rcases ih _ x h with hm | ⟨q', hq', he⟩
    · unfold alSet at hm
      rcases List.mem_cons.mp hm with he | hf
      · exact Or.inr ⟨q, List.mem_cons_self q r, by rw [he]⟩
      · exact Or.inl (List.mem_of_mem_filter hf)
    · exact Or.inr ⟨q', List.mem_cons_of_mem q hq', he⟩

theorem find?_filter_ne (doc : Doc) (k f : String) (hf : f ≠ k) :
    (doc.filter (fun p => decide (p.1 ≠ k))).find? (fun p => decide (p.1 = f)) =
      doc.find? (fun p => decide (p.1 = f)) := by
  induction doc with
  | nil => rfl
  | cons p r ih =>
    by_cases hpk : p.1 = k
    · have h1 : (decide (p.1 ≠ k)) = false := by simp [hpk]
      have h2 : (decide (p.1 = f)) = false := by simp [hpk, Ne.symm hf]
      simp only [List.filter_cons, h1, if_false, List.find?_cons, h2, ite_false]
      simpa [h2] using ih
    · have h1 : (decide (p.1 ≠ k)) = true := by simp [hpk]
      simp only [List.filter_cons, h1, if_true, List.find?_cons]
      by_cases hpf : p.1 = f
      · simp [hpf]
      · simpa [hpf] using ih

theorem dget?_dset_ne (doc : Doc) (k f : String) (v : PyVal) (hf : f ≠ k) :
    dget? (dset doc k v) f = dget? doc f := by
  unfold dget? dset
  rw [List.find?_cons]
  have h2 : (decide ((k, v).1 = f)) = false := by simp [Ne.symm hf]
  rw [h2]
  rw [find?_filter_ne doc k f hf]

theorem dget?_dset_self (doc : Doc) (k : String) (v : PyVal) :
    dget? (dset doc k v) k = Option.some v := by
  unfold dget? dset
  rw [List.find?_cons]
  simp

/-! ## Theorems: reranker contract -/

/-- C8: reranking an empty candidate list yields `[]` no matter what
the scoring model does (it is never consulted); on any list, a
successful rerank returns at most `top_k` records, each of which
preserves every field of some input candidate except `rerank_score`,
which is added or overwritten with the model's score. -/
theorem rerank_contract (ranker : Ranker) (query : String)
    (documents : List Doc) (top_k : Nat) :
    (documents = [] → ∀ rk : Ranker,
      Reranker.rerank rk query documents top_k = .ok []) ∧
    (∀ out, Reranker.rerank ranker query documents top_k = .ok out →
      out.length ≤ top_k ∧
      ∀ d ∈ out, ∃ doc ∈ documents,
        (∀ f, f ≠ "rerank_score" → dget? d f = dget? doc f) ∧
        ∃ s : ℚ, dget? d "rerank_score" = Option.some (.num s)) := by
  constructor
  · intro hemp rk
    subst hemp
    rfl
  · intro out hout
    unfold Reranker.rerank at hout
    by_cases hemp : documents.isEmpty
    · rw [if_pos hemp] at hout
      cases hout
      exact ⟨Nat.zero_le _, by intro d hd; exact absurd hd (by simp)⟩
    · rw [if_neg hemp] at hout
      cases hr : ranker query (documents.enum.map
        (fun p => { id := docKey p.1 p.2, text := dgetD p.2 "content" (.str "") : Passage })) with
      | error e => rw [hr] at hout; exact absurd hout (by simp)
      | ok results =>
        rw [hr] at hout
        simp only [Except.ok.injEq] at hout
        subst hout
        constructor
        · exact le_trans (List.length_filterMap_le _ _) (List.length_take_le _ _)
        · intro d hd
          obtain ⟨r, -, hmap⟩ := List.mem_filterMap.mp hd
          cases halg : alGet (documents.enum.foldl
            (fun m p => alSet m (docKey p.1 p.2) p.2) [])
            (pyOr r.idVal r.passageIdVal) with
          | none => rw [halg] at hmap; exact absurd hmap (by simp)
          | some doc =>
            rw [halg] at hmap
            simp only [Option.map_some', Option.some_inj] at hmap
            obtain ⟨p, hp, hpd⟩ := alGet_mem _ _ _ halg
            rcases idToDoc_mem documents.enum [] p hp with hnil | ⟨q, hq, hqe⟩
            · exact absurd hnil (by simp)
            · refine ⟨q.2, ?_, ?_, ?_⟩
              · have := List.enum_map_snd documents
                exact this ▸ List.mem_map_of_mem Prod.snd hq
              · intro f hfne
                rw [← hmap, dget?_dset_ne doc _ f _ hfne, ← hqe, hpd]
              · exact ⟨r.score, by rw [← hmap, dget?_dset_self]⟩

/-- Closed instantiation of `rerank_contract`: the empty list, and a
one-candidate list whose extra field survives reranking. -/
theorem rerank_contract_witness :
    (([] : List Doc) = [] ∧
      Reranker.rerank okRanker "q" ([] : List Doc) 3 = .ok []) ∧
    (Reranker.rerank okRanker "q"
        [[("id", PyVal.str "x"), ("content", PyVal.str "hello"),
          ("extra", PyVal.num 7)]] 1 =
      .ok [[("rerank_score", PyVal.num 1), ("id", PyVal.str "x"),
            ("content", PyVal.str "hello"), ("extra", PyVal.num 7)]] ∧
     ([[("rerank_score", PyVal.num 1), ("id", PyVal.str "x"),
        ("content", PyVal.str "hello"), ("extra", PyVal.num 7)]] : List Doc).length ≤ 1 ∧
     ∀ d ∈ ([[("rerank_score", PyVal.num 1), ("id", PyVal.str "x"),
        ("content", PyVal.str "hello"), ("extra", PyVal.num 7)]] : List Doc),
       ∃ doc ∈ ([[("id", PyVal.str "x"), ("content", PyVal.str "hello"),
          ("extra", PyVal.num 7)]] : List Doc),
         (∀ f, f ≠ "rerank_score" → dget? d f = dget? doc f) ∧
         ∃ s : ℚ, dget? d "rerank_score" = Option.some (.num s)) := by
  refine ⟨⟨rfl, (rerank_contract okRanker "q" [] 3).1 rfl okRanker⟩, ?_, ?_⟩
  · rfl
  · exact (rerank_contract okRanker "q"
      [[("id", PyVal.str "x"), ("content", PyVal.str "hello"),
        ("extra", PyVal.num 7)]] 1).2 _ rfl

/-! ## Theorems: orchestrator plumbing -/

theorem embed_wrong_dim (provider : Provider) (text : String) (v : List ℚ)
    (hv : provider text = .ok v) (hlen : v.length ≠ 1024) :
    EmbeddingClient.embed provider text = .error (.valueError
      ("HARD CONTRACT VIOLATION: Expected " ++ natStr 1024 ++ " dims, got " ++
        natStr v.length ++ ". Check embedding model.")) := by
  unfold EmbeddingClient.embed
  rw [hv]
  simp [EmbeddingClient.DIMENSION, hlen]

theorem search_error_of_resolve_error (ctx : Ctx) (req : SearchRequest)
    (e : PyError) (hproj : getProjectInfo ctx.db req.project_id = .error e) :
    SearchService.search ctx req = .error e := by
  unfold SearchService.search
  rw [hproj]

theorem search_eq_hit (ctx : Ctx) (req : SearchRequest) (proj : Project)
    (cached : CacheEntry)
    (hproj : getProjectInfo ctx.db req.project_id = .ok proj)
    (hhit : CacheClient.get ctx.cache
      (generate_cache_key req.project_id proj.corpus_version req.query) =
      Option.some cached) :
    SearchService.search ctx req =
      .ok ({ results := cached.results, query := req.query,
             project_id := req.project_id, total_found := cached.total_found,
             latency_ms := 0, cache_hit := true,
             corpus_version := proj.corpus_version }, ctx.cache, []) := by
  unfold SearchService.search
  rw [hproj]
  simp only [hhit]

theorem search_eq_miss (ctx : Ctx) (req : SearchRequest) (proj : Project)
    (hproj : getProjectInfo ctx.db req.project_id = .ok proj)
    (hmiss : CacheClient.get ctx.cache
      (generate_cache_key req.project_id proj.corpus_version req.query) =
      Option.none) :
    SearchService.search ctx req =
      searchMiss ctx req proj.id proj.corpus_version
        (generate_cache_key req.project_id proj.corpus_version req.query) := by
  unfold SearchService.search
  rw [hproj]
  simp only [hmiss]

theorem search_error_of_embed_error (ctx : Ctx) (req : SearchRequest)
    (proj : Project) (e : PyError)
    (hproj : getProjectInfo ctx.db req.project_id = .ok proj)
    (hmiss : CacheClient.get ctx.cache
      (generate_cache_key req.project_id proj.corpus_version req.query) =
      Option.none)
    (hembed : EmbeddingClient.embed ctx.provider req.query = .error e) :
    SearchService.search ctx req = .error e := by
  rw [search_eq_miss ctx req proj hproj hmiss]
  unfold searchMiss
  rw [hembed]

theorem mapEx_ok_of_forall {α β : Type} (f : α → Except PyError β) :
    ∀ l : List α, (∀ x ∈ l, ∃ y, f x = .ok y) →
    ∃ ys, mapEx f l = .ok ys := by
  intro l
  induction l with
  | nil => intro _; exact ⟨[], rfl⟩
  | cons x r ih =>
    intro h
    obtain ⟨y, hy⟩ := h x (List.mem_cons_self x r)
    obtain ⟨ys, hys⟩ := ih (fun z hz => h z (List.mem_cons_of_mem x hz))
    exact ⟨y :: ys, by unfold mapEx; rw [hy, hys]⟩

theorem mapEx_ok_mem {α β : Type} (f : α → Except PyError β) :
    ∀ (l : List α) (ys : List β), mapEx f l = .ok ys →
    ∀ y ∈ ys, ∃ x ∈ l, f x = .ok y := by
  intro l
  induction l with
  | nil =>
    intro ys h y hy
    cases h
    exact absurd hy (by simp)
  | cons x r ih =>
    intro ys h y hy
    unfold mapEx at h
    cases hx : f x with
    | error e => rw [hx] at h; exact absurd h (by simp)
    | ok z =>
      rw [hx] at h
      cases hr : mapEx f r with
      | error e => rw [hr] at h; exact absurd h (by simp)
      | ok zs =>
        rw [hr] at h
        simp only [Except.ok.injEq] at h
        subst h
        rcases List.mem_cons.mp hy with hyz | hyzs
        · exact ⟨x, List.mem_cons_self x r, by rw [hx, hyz]⟩
        · obtain ⟨w, hw, hfw⟩ := ih zs hr y hyzs
          exact ⟨w, List.mem_cons_of_mem x hw, hfw⟩

theorem hybrid_search_rows (db : Db) (score : Chunk → ℚ) (pid : String)
    (limit : Nat) (category : Option String) :
    ∀ row ∈ hybrid_search db score pid limit category,
      ∃ c ∈ db.chunks, c.project_id = pid ∧ row.chunk_id = c.id ∧
        row.document_id = c.document_id ∧ row.content = c.content := by
  intro row hrow
  have h1 := List.mem_of_mem_take hrow
  obtain ⟨c, hc, hmap⟩ := List.mem_map.mp h1
  have hcf := List.mem_filter.mp hc
  refine ⟨c, hcf.1, ?_, ?_, ?_, ?_⟩
  · have := hcf.2
    simp only [Bool.and_eq_true, decide_eq_true_eq] at this
    exact this.1
  · rw [← hmap]
  · rw [← hmap]
  · rw [← hmap]

theorem hybrid_search_length (db : Db) (score : Chunk → ℚ) (pid : String)
    (limit : Nat) (category : Option String) :
    (hybrid_search db score pid limit category).length =
      min limit (db.chunks.filter
        (fun c => decide (c.project_id = pid) && categoryOk db c category)).length := by
  unfold hybrid_search
  rw [List.length_take, List.length_map]

theorem rowToDoc_id (row : HRow) : dget? (rowToDoc row) "id" =
    Option.some (.str row.chunk_id) := rfl

theorem rowToDoc_document_id (row : HRow) : dget? (rowToDoc row) "document_id" =
    Option.some (.str row.document_id) := rfl

theorem rowToDoc_content (row : HRow) : dget? (rowToDoc row) "content" =
    Option.some (.str row.content) := rfl

theorem rerank_ok_exists (ranker : Ranker) (query : String)
    (documents : List Doc) (top_k : Nat)
    (hranker : ∀ q ps, ∃ rs, ranker q ps = .ok rs) :
    ∃ out, Reranker.rerank ranker query documents top_k = .ok out := by
  unfold Reranker.rerank
  by_cases hemp : documents.isEmpty
  · exact ⟨[], by rw [if_pos hemp]⟩
  · rw [if_neg hemp]
    obtain ⟨rs, hrs⟩ := hranker query (documents.enum.map
      (fun p => { id := docKey p.1 p.2, text := dgetD p.2 "content" (.str "") : Passage }))
    rw [hrs]
    exact ⟨_, rfl⟩

theorem rerank_ok_fields (ranker : Ranker) (query : String)
    (documents : List Doc) (top_k : Nat) (out : List Doc)
    (hout : Reranker.rerank ranker query documents top_k = .ok out) :
    ∀ d ∈ out, ∃ doc ∈ documents,
      ∀ f, f ≠ "rerank_score" → dget? d f = dget? doc f := by
  intro d hd
  unfold Reranker.rerank at hout
  by_cases hemp : documents.isEmpty
  · rw [if_pos hemp] at hout
    cases hout
    exact absurd hd (by simp)
  · rw [if_neg hemp] at hout
    cases hr : ranker query (documents.enum.map
      (fun p => { id := docKey p.1 p.2, text := dgetD p.2 "content" (.str "") : Passage })) with
    | error e => rw [hr] at hout; exact absurd hout (by simp)
    | ok results =>
      rw [hr] at hout
      simp only [Except.ok.injEq] at hout
      subst hout
      obtain ⟨r, -, hmap⟩ := List.mem_filterMap.mp hd
      cases halg : alGet (documents.enum.foldl
        (fun m p => alSet m (docKey p.1 p.2) p.2) [])
        (pyOr r.idVal r.passageIdVal) with
      | none => rw [halg] at hmap; exact absurd hmap (by simp)
      | some doc =>
        rw [halg] at hmap
        simp only [Option.map_some', Option.some_inj] at hmap
        obtain ⟨p, hp, hpd⟩ := alGet_mem _ _ _ halg
        rcases idToDoc_mem documents.enum [] p hp with hnil | ⟨q, hq, hqe⟩
        · exact absurd hnil (by simp)
        · refine ⟨q.2, ?_, ?_⟩
          · have := List.enum_map_snd documents
            exact this ▸ List.mem_map_of_mem Prod.snd hq
          · intro f hfne
            rw [← hmap, dget?_dset_ne doc _ f _ hfne, ← hqe, hpd]

theorem docs2_provenance (ranker : Ranker) (query : String)
    (documents : List Doc) (top_k : Nat) (out : List Doc)
    (h : Reranker.rerank ranker query documents top_k = .ok out ∨
      out = documents.take top_k) :
    ∀ d ∈ out, ∃ doc ∈ documents,
      ∀ f, f ≠ "rerank_score" → dget? d f = dget? doc f := by
  intro d hd
  rcases h with hr | ht
  · exact rerank_ok_fields ranker query documents top_k out hr d hd
  · subst ht
    exact ⟨d, List.mem_of_mem_take hd, fun f _ => rfl⟩

theorem uuidParse?_eq (s u : String) (h : uuidParse? s = Option.some u) :
    u = s := by
  unfold uuidParse? at h
  split at h
  · cases h; rfl
  · exact absurd h (by simp)

theorem parseDocUuid_ok (d : Doc) (field s : String)
    (hf : dget? d field = Option.some (.str s)) (hlen : s.length = 36) :
    parseDocUuid d field = .ok s := by
  unfold parseDocUuid dgetD
  rw [hf]
  simp [asStr, uuidParse?, hlen]

theorem parseDocUuid_ok_eq (d : Doc) (field u : String)
    (h : parseDocUuid d field = .ok u) :
    u = asStr (dgetD d field (.str "")) := by
  unfold parseDocUuid at h
  cases hp : uuidParse? (asStr (dgetD d field (.str ""))) with
  | none => rw [hp] at h; exact absurd h (by simp)
  | some v =>
    rw [hp] at h
    simp only [Except.ok.injEq] at h
    rw [← h]
    exact uuidParse?_eq _ _ hp

theorem buildResult_ok_exists (cm : List (String × ChunkInfoRow)) (d : Doc)
    (u u' : String) (hid : parseDocUuid d "id" = .ok u)
    (hdid : parseDocUuid d "document_id" = .ok u') :
    ∃ r, buildResult cm d = .ok r := by
  unfold buildResult
  rw [hid, hdid]
  exact ⟨_, rfl⟩

theorem buildResult_ok_spec (cm : List (String × ChunkInfoRow)) (d : Doc)
    (r : ChunkResult) (h : buildResult cm d = .ok r) :
    r.id = asStr (dgetD d "id" (.str "")) ∧
    r.document_id = asStr (dgetD d "document_id" (.str "")) ∧
    r.content = asStr (dgetD d "content" (.str "")) ∧
    r.chunk_index = 0 := by
  unfold buildResult at h
  cases hid : parseDocUuid d "id" with
  | error e => rw [hid] at h; exact absurd h (by simp)
  | ok u =>
    cases hdid : parseDocUuid d "document_id" with
    | error e => rw [hid, hdid] at h; exact absurd h (by simp)
    | ok u' =>
      rw [hid, hdid] at h
      simp only [Except.ok.injEq] at h
      subst h
      exact ⟨parseDocUuid_ok_eq d "id" u hid,
        parseDocUuid_ok_eq d "document_id" u' hdid, rfl, rfl⟩

theorem documents_fields (db : Db) (score : Chunk → ℚ) (pid : String)
    (limit : Nat) (category : Option String) :
    ∀ doc ∈ (hybrid_search db score pid limit category).map rowToDoc,
      ∃ c ∈ db.chunks, c.project_id = pid ∧
        dget? doc "id" = Option.some (.str c.id) ∧
        dget? doc "document_id" = Option.some (.str c.document_id) ∧
        dget? doc "content" = Option.some (.str c.content) := by
  intro doc hdoc
  obtain ⟨row, hrow, hm⟩ := List.mem_map.mp hdoc
  obtain ⟨c, hc, hpid, h1, h2, h3⟩ :=
    hybrid_search_rows db score pid limit category row hrow
  subst hm
  exact ⟨c, hc, hpid, by rw [rowToDoc_id, h1], by rw [rowToDoc_document_id, h2],
    by rw [rowToDoc_content, h3]⟩

theorem d2_chunk_fields (db : Db) (score : Chunk → ℚ) (pid : String)
    (limit k : Nat) (category : Option String) (ranker : Ranker) (q : String)
    (d2 : List Doc)
    (hbranch : Reranker.rerank ranker q
        ((hybrid_search db score pid limit category).map rowToDoc) k = .ok d2 ∨
      d2 = ((hybrid_search db score pid limit category).map rowToDoc).take k) :
    ∀ d ∈ d2, ∃ c ∈ db.chunks, c.project_id = pid ∧
      dget? d "id" = Option.some (.str c.id) ∧
      dget? d "document_id" = Option.some (.str c.document_id) ∧
      dget? d "content" = Option.some (.str c.content) := by
  intro d hd
  obtain ⟨doc, hdoc, hpres⟩ := docs2_provenance ranker q _ k d2 hbranch d hd
  obtain ⟨c, hc, hpid, h1, h2, h3⟩ :=
    documents_fields db score pid limit category doc hdoc
  exact ⟨c, hc, hpid, by rw [hpres "id" (by decide), h1],
    by rw [hpres "document_id" (by decide), h2],
    by rw [hpres "content" (by decide), h3]⟩

theorem searchMiss_ok_spec (ctx : Ctx) (req : SearchRequest) (pid : String)
    (cv : Nat) (key : String) (out : SearchResponse × CacheClient × List Ev)
    (h : searchMiss ctx req pid cv key = .ok out) :
    out.1.cache_hit = false ∧
    out.1.query = req.query ∧
    out.1.project_id = req.project_id ∧
    out.1.corpus_version = cv ∧
    (∃ emb, EmbeddingClient.embed ctx.provider req.query = .ok emb ∧
      out.1.total_found = (hybrid_search ctx.db (ctx.fusedScore emb req.query)
        pid (req.top_k * 2) req.category).length) ∧
    (∀ r ∈ out.1.results, ∃ c ∈ ctx.db.chunks, c.project_id = pid ∧
      r.id = c.id ∧ r.document_id = c.document_id ∧ r.content = c.content ∧
      r.chunk_index = 0) ∧
    out.2.1 = (CacheClient.set ctx.cache key
      { results := out.1.results, total_found := out.1.total_found }).1 := by
  unfold searchMiss at h
  cases hembed : EmbeddingClient.embed ctx.provider req.query with
  | error e =>
    simp only [hembed] at h
    exact absurd h (by simp)
  | ok emb =>
    simp only [hembed] at h
    cases hdb : ctx.dbError with
    | some e =>
      simp only [hdb] at h
      exact absurd h (by simp)
    | none =>
      simp only [hdb] at h
      split at h
      · exact absurd h (by simp)
      next d2 revs heq =>
        have hbranch : Reranker.rerank ctx.ranker req.query
            ((hybrid_search ctx.db (ctx.fusedScore emb req.query) pid
              (req.top_k * 2) req.category).map rowToDoc) req.top_k = .ok d2 ∨
            d2 = ((hybrid_search ctx.db (ctx.fusedScore emb req.query) pid
              (req.top_k * 2) req.category).map rowToDoc).take req.top_k := by
          split at heq
          · split at heq
            · exact absurd heq (by simp)
            next ds hds =>
              cases heq
              exact Or.inl hds
          · cases heq
            exact Or.inr rfl
        split at h
        · exact absurd h (by simp)
        next chunk_ids hmids =>
          split at h
          · exact absurd h (by simp)
          next results hres =>
            cases h
            refine ⟨rfl, rfl, rfl, rfl, ⟨emb, rfl, rfl⟩, ?_, rfl⟩
            intro r hr
            obtain ⟨d, hd, hbr⟩ := mapEx_ok_mem _ d2 results hres r hr
            obtain ⟨hrid, hrdid, hrcont, hrci⟩ := buildResult_ok_spec _ _ _ hbr
            obtain ⟨c, hc, hpid, hid, hdid, hcont⟩ := d2_chunk_fields ctx.db
              (ctx.fusedScore emb req.query) pid (req.top_k * 2) req.top_k
              req.category ctx.ranker req.query d2 hbranch d hd
            refine ⟨c, hc, hpid, ?_, ?_, ?_, hrci⟩
            · rw [hrid]; unfold dgetD; rw [hid]; rfl
            · rw [hrdid]; unfold dgetD; rw [hdid]; rfl
            · rw [hrcont]; unfold dgetD; rw [hcont]; rfl

theorem searchMiss_succeeds (ctx : Ctx) (req : SearchRequest) (pid : String)
    (cv : Nat) (key : String)
    (hembed : ∃ emb, EmbeddingClient.embed ctx.provider req.query = .ok emb)
    (hdb : ctx.dbError = Option.none)
    (hranker : ∀ q ps, ∃ rs, ctx.ranker q ps = .ok rs)
    (hwf : ∀ c ∈ ctx.db.chunks, c.id.length = 36 ∧ c.document_id.length = 36) :
    ∃ out, searchMiss ctx req pid cv key = .ok out := by
  cases hrun : searchMiss ctx req pid cv key with
  | ok out => exact ⟨out, rfl⟩
  | error e =>
    exfalso
    obtain ⟨emb, hembed⟩ := hembed
    unfold searchMiss at hrun
    simp only [hembed] at hrun
    simp only [hdb] at hrun
    split at hrun
    next e2 heq =>
      split at heq
      · obtain ⟨o, ho⟩ := rerank_ok_exists ctx.ranker req.query
          ((hybrid_search ctx.db (ctx.fusedScore emb req.query) pid
            (req.top_k * 2) req.category).map rowToDoc) req.top_k hranker
        rw [ho] at heq
        exact absurd heq (by simp)
      · exact absurd heq (by simp)
    next d2 revs heq =>
      have hbranch : Reranker.rerank ctx.ranker req.query
          ((hybrid_search ctx.db (ctx.fusedScore emb req.query) pid
            (req.top_k * 2) req.category).map rowToDoc) req.top_k = .ok d2 ∨
          d2 = ((hybrid_search ctx.db (ctx.fusedScore emb req.query) pid
            (req.top_k * 2) req.category).map rowToDoc).take req.top_k := by
        split at heq
        · split at heq
          · exact absurd heq (by simp)
          next ds hds =>
            cases heq
            exact Or.inl hds
        · cases heq
          exact Or.inr rfl
      have hfields := d2_chunk_fields ctx.db (ctx.fusedScore emb req.query) pid
        (req.top_k * 2) req.top_k req.category ctx.ranker req.query d2 hbranch
      have hparse : ∀ d ∈ d2, ∃ u, parseDocUuid d "id" = .ok u := by
        intro d hd
        obtain ⟨c, hc, -, hid, -, -⟩ := hfields d hd
        exact ⟨c.id, parseDocUuid_ok d "id" c.id hid (hwf c hc).1⟩
      obtain ⟨cids, hcids⟩ := mapEx_ok_of_forall _ d2 hparse
      split at hrun
      next e3 heq3 =>
        rw [hcids] at heq3
        exact absurd heq3 (by simp)
      next chunk_ids hmids =>
        have hbuild : ∀ d ∈ d2, ∃ r,
            buildResult (buildChunkMap (chunkInfoQuery ctx.db chunk_ids)) d = .ok r := by
          intro d hd
          obtain ⟨c, hc, -, hid, hdid, -⟩ := hfields d hd
          exact buildResult_ok_exists _ d c.id c.document_id
            (parseDocUuid_ok d "id" c.id hid (hwf c hc).1)
            (parseDocUuid_ok d "document_id" c.document_id hdid (hwf c hc).2)
        obtain ⟨results, hres⟩ := mapEx_ok_of_forall _ d2 hbuild
        split at hrun
        next e4 heq4 =>
          rw [hres] at heq4
          exact absurd heq4 (by simp)
        next results2 hres2 => exact absurd hrun (by simp)

/-! ## Theorems: cache client state -/

theorem alGet_alSet_self {κ α : Type} [DecidableEq κ] (l : List (κ × α))
    (k : κ) (v : α) : alGet (alSet l k v) k = Option.some v := by
  unfold alGet alSet
  rw [List.find?_cons]
  simp

theorem cache_get_after_set (c : CacheClient) (conn : CacheConn)
    (hconn : c.conn = Option.some conn) (hreach : conn.reachable = true)
    (k : String) (v : CacheEntry) :
    CacheClient.get (CacheClient.set c k v).1 k = Option.some v := by
  simp [CacheClient.set, CacheClient.get, hconn, hreach, alGet_alSet_self]

theorem cache_get_dead (c : CacheClient)
    (hdead : c.conn = Option.none ∨
      ∃ conn, c.conn = Option.some conn ∧ conn.reachable = false) :
    ∀ k, CacheClient.get c k = Option.none := by
  intro k
  rcases hdead with h | ⟨conn, hc, hr⟩
  · simp [CacheClient.get, h]
  · simp [CacheClient.get, hc, hr]

theorem cache_set_dead (c : CacheClient)
    (hdead : c.conn = Option.none ∨
      ∃ conn, c.conn = Option.some conn ∧ conn.reachable = false) :
    ∀ k v, CacheClient.set c k v = (c, false) := by
  intro k v
  rcases hdead with h | ⟨conn, hc, hr⟩
  · simp [CacheClient.set, h]
  · simp [CacheClient.set, hc, hr]

/-! ## Theorems: the claims about the orchestrator -/

/-- C1 (storage spec-modelled): a cache-miss search resolved to tenant
`proj` returns only chunks stored under `proj`'s internal id — the
hybrid-search storage query is scoped by that id — so for any other
tenant (disjoint document set, distinct internal id) no returned result
is one of its chunks.  `huid` states chunk ids are unique across the
store, as for primary keys. -/
theorem tenant_isolation (ctx : Ctx) (req : SearchRequest) (proj : Project)
    (out : SearchResponse × CacheClient × List Ev)
    (hproj : getProjectInfo ctx.db req.project_id = .ok proj)
    (hmiss : CacheClient.get ctx.cache
      (generate_cache_key req.project_id proj.corpus_version req.query) =
      Option.none)
    (hrun : SearchService.search ctx req = .ok out)
    (huid : ∀ c ∈ ctx.db.chunks, ∀ c' ∈ ctx.db.chunks, c.id = c'.id → c = c') :
    ∀ r ∈ out.1.results,
      (∃ c ∈ ctx.db.chunks, c.project_id = proj.id ∧ r.id = c.id ∧
        r.document_id = c.document_id ∧ r.content = c.content) ∧
      (∀ c' ∈ ctx.db.chunks, c'.project_id ≠ proj.id → r.id ≠ c'.id) := by
  rw [search_eq_miss ctx req proj hproj hmiss] at hrun
  have hspec := searchMiss_ok_spec _ _ _ _ _ _ hrun
  intro r hr
  obtain ⟨c, hc, hpid, hid, hdid, hcont, -⟩ := hspec.2.2.2.2.2.1 r hr
  refine ⟨⟨c, hc, hpid, hid, hdid, hcont⟩, ?_⟩
  intro c' hc' hcp' heq
  have hcc : c = c' := huid c hc c' hc' (by rw [← hid, heq])
  exact hcp' (by rw [← hcc, hpid])

/-- Closed instantiation of `tenant_isolation` on the two-tenant sample
corpus: the one returned result is tenant A's chunk and is not tenant
B's chunk. -/
theorem tenant_isolation_witness :
    sampleResult ∈ sampleOut.1.results ∧
    (∃ c ∈ sampleCtx.db.chunks, c.project_id = projA.id ∧
      sampleResult.id = c.id ∧ sampleResult.document_id = c.document_id ∧
      sampleResult.content = c.content) ∧
    (∀ c' ∈ sampleCtx.db.chunks, c'.project_id ≠ projA.id →
      sampleResult.id ≠ c'.id) :=
  ⟨by decide,
   tenant_isolation sampleCtx sampleReq projA sampleOut rfl rfl (by decide)
     (by decide) sampleResult (by decide)⟩

/-- C4: with the cache connection absent or unreachable, `get` returns
absent and `set` reports failure without raising, and — the rest of the
pipeline behaving — the search still completes successfully with
`cache_hit = false`. -/
theorem cache_failure_absorbed (ctx : Ctx) (req : SearchRequest) (proj : Project)
    (hproj : getProjectInfo ctx.db req.project_id = .ok proj)
    (hdead : ctx.cache.conn = Option.none ∨
      ∃ conn, ctx.cache.conn = Option.some conn ∧ conn.reachable = false)
    (hembed : ∃ emb, EmbeddingClient.embed ctx.provider req.query = .ok emb)
    (hdb : ctx.dbError = Option.none)
    (hranker : ∀ q ps, ∃ rs, ctx.ranker q ps = .ok rs)
    (hwf : ∀ c ∈ ctx.db.chunks, c.id.length = 36 ∧ c.document_id.length = 36) :
    (∀ k, CacheClient.get ctx.cache k = Option.none) ∧
    (∀ k v, CacheClient.set ctx.cache k v = (ctx.cache, false)) ∧
    (∃ out, SearchService.search ctx req = .ok out ∧ out.1.cache_hit = false) := by
  have hget := cache_get_dead ctx.cache hdead
  refine ⟨hget, cache_set_dead ctx.cache hdead, ?_⟩
  obtain ⟨out, hout⟩ := searchMiss_succeeds ctx req proj.id proj.corpus_version
    (generate_cache_key req.project_id proj.corpus_version req.query)
    hembed hdb hranker hwf
  refine ⟨out, ?_, (searchMiss_ok_spec _ _ _ _ _ _ hout).1⟩
  rw [search_eq_miss ctx req proj hproj (hget _), hout]

/-- Closed instantiation of `cache_failure_absorbed` with the sample
corpus and an unreachable cache connection. -/
theorem cache_failure_absorbed_witness :
    (∀ k, CacheClient.get deadCache k = Option.none) ∧
    (∀ k v, CacheClient.set deadCache k v = (deadCache, false)) ∧
    (∃ out, SearchService.search { sampleCtx with cache := deadCache } sampleReq =
      .ok out ∧ out.1.cache_hit = false) :=
  cache_failure_absorbed { sampleCtx with cache := deadCache } sampleReq projA
    rfl (Or.inr ⟨{ reachable := false, store := [] }, rfl, rfl⟩)
    ⟨List.replicate 1024 (0 : ℚ), rfl⟩ rfl (fun q ps => ⟨_, rfl⟩) (by decide)

/-- C5: when the cache read returns a stored entry, the orchestrator
returns a response rebuilt from it — `cache_hit = true`, the stored
`total_found`, the stored results — leaves the cache untouched, and its
effect trace is empty: no embedding, hybrid-search, rerank or
cache-write call happens (wall-clock latency is outside this
embedding). -/
theorem cache_hit_rebuilds_response (ctx : Ctx) (req : SearchRequest)
    (proj : Project) (cached : CacheEntry)
    (hproj : getProjectInfo ctx.db req.project_id = .ok proj)
    (hhit : CacheClient.get ctx.cache
      (generate_cache_key req.project_id proj.corpus_version req.query) =
      Option.some cached) :
    ∃ resp, SearchService.search ctx req = .ok (resp, ctx.cache, []) ∧
      resp.cache_hit = true ∧
      resp.results = cached.results ∧
      resp.total_found = cached.total_found ∧
      resp.corpus_version = proj.corpus_version :=
  ⟨_, search_eq_hit ctx req proj cached hproj hhit, rfl, rfl, rfl, rfl⟩

/-- Closed instantiation of `cache_hit_rebuilds_response`: a prefilled
cache entry is echoed with `cache_hit = true` and no pipeline calls. -/
theorem cache_hit_rebuilds_response_witness :
    ∃ resp, SearchService.search
      { sampleCtx with cache := hitCache } sampleReq =
      .ok (resp, hitCache, []) ∧
      resp.cache_hit = true ∧
      resp.results = (({ results := [], total_found := 7 } : CacheEntry)).results ∧
      resp.total_found = (({ results := [], total_found := 7 } : CacheEntry)).total_found ∧
      resp.corpus_version = projA.corpus_version :=
  cache_hit_rebuilds_response _ sampleReq projA { results := [], total_found := 7 }
    rfl rfl

/-- C6 counterexample: an embedding-dimension integrity violation (a 3-
dimension provider response) is translated by the HTTP boundary to 404,
not 500 — `except ValueError` in the handler catches the hard-contract
`ValueError` raised by `EmbeddingClient.embed` just like a tenant
not-found. -/
theorem http_dimension_violation_is_404 :
    httpSearch { sampleCtx with provider := shortProvider } sampleReq =
      .failure 404
        "HARD CONTRACT VIOLATION: Expected 1024 dims, got 3. Check embedding model." ∧
    (404 : Nat) ≠ 500 :=
  ⟨rfl, by decide⟩

/-- C6 (amended): the boundary translates any `ValueError` from the
service — tenant not-found, but also the embedding-dimension integrity
violation, which raises `ValueError` — to HTTP 404, and every other
exception (embedding/storage/rerank internal failures) to HTTP 500;
those two classes stay distinguishable, but the dimension violation is
not distinguishable from not-found. -/
theorem http_error_translation (ctx : Ctx) (req : SearchRequest) :
    (∀ m, SearchService.search ctx req = .error (.valueError m) →
      httpSearch ctx req = .failure 404 m) ∧
    (∀ m, SearchService.search ctx req = .error (.exc m) →
      httpSearch ctx req = .failure 500 m) ∧
    (getProjectInfo ctx.db req.project_id =
        .error (.valueError ("Project not found: " ++ req.project_id)) →
      httpSearch ctx req = .failure 404 ("Project not found: " ++ req.project_id)) ∧
    (∀ (proj : Project) (v : List ℚ),
      getProjectInfo ctx.db req.project_id = .ok proj →
      CacheClient.get ctx.cache
        (generate_cache_key req.project_id proj.corpus_version req.query) =
        Option.none →
      ctx.provider req.query = .ok v → v.length ≠ 1024 →
      httpSearch ctx req = .failure 404
        ("HARD CONTRACT VIOLATION: Expected " ++ natStr 1024 ++ " dims, got " ++
          natStr v.length ++ ". Check embedding model.")) := by
  refine ⟨?_, ?_, ?_, ?_⟩
  · intro m h
    unfold httpSearch
    rw [h]
  · intro m h
    unfold httpSearch
    rw [h]
  · intro h
    unfold httpSearch
    rw [search_error_of_resolve_error ctx req _ h]
  · intro proj v hproj hmiss hv hlen
    unfold httpSearch
    rw [search_error_of_embed_error ctx req proj _ hproj hmiss
      (embed_wrong_dim ctx.provider req.query v hv hlen)]

/-- Closed instantiation of `http_error_translation`: an unknown tenant
becomes 404, a raising embedding backend becomes 500. -/
theorem http_error_translation_witness :
    httpSearch sampleCtx { query := "q", project_id := "does-not-exist" } =
      .failure 404 ("Project not found: " ++ "does-not-exist") ∧
    httpSearch { sampleCtx with provider := downProvider } sampleReq =
      .failure 500 "APIConnectionError" :=
  ⟨(http_error_translation sampleCtx
      { query := "q", project_id := "does-not-exist" }).2.2.1 rfl,
   (http_error_translation { sampleCtx with provider := downProvider }
      sampleReq).2.1 "APIConnectionError" rfl⟩

/-- C9 counterexample: the sample search returns tenant A's chunk whose
stored ordinal within its document is 1, yet the response carries
`chunk_index = 0` — the orchestrator hard-codes 0 (source comment:
"Could be added to query if needed"). -/
theorem chunk_index_not_ordinal :
    (SearchService.search sampleCtx sampleReq).map
        (fun out => out.1.results.map (fun r => (r.id, r.chunk_index))) =
      .ok [("00000000-0000-0000-0000-0000000000c1", 0)] ∧
    chunkA.id = "00000000-0000-0000-0000-0000000000c1" ∧
    chunkA.chunk_index = 1 :=
  ⟨by decide, rfl, rfl⟩

/-- C9 (amended): every chunk result assembled by a cache-miss search
carries `chunk_index = 0` regardless of the chunk's stored ordinal; the
field is hard-coded in the result assembly, so it equals the true
ordinal only for a document's first chunk. -/
theorem chunk_index_always_zero (ctx : Ctx) (req : SearchRequest)
    (proj : Project) (out : SearchResponse × CacheClient × List Ev)
    (hproj : getProjectInfo ctx.db req.project_id = .ok proj)
    (hmiss : CacheClient.get ctx.cache
      (generate_cache_key req.project_id proj.corpus_version req.query) =
      Option.none)
    (hrun : SearchService.search ctx req = .ok out) :
    ∀ r ∈ out.1.results, r.chunk_index = 0 := by
  rw [search_eq_miss ctx req proj hproj hmiss] at hrun
  have hspec := searchMiss_ok_spec _ _ _ _ _ _ hrun
  intro r hr
  obtain ⟨c, -, -, -, -, -, hci⟩ := hspec.2.2.2.2.2.1 r hr
  exact hci

/-- Closed instantiation of `chunk_index_always_zero` on the sample
search. -/
theorem chunk_index_always_zero_witness :
    sampleResult ∈ sampleOut.1.results ∧ sampleResult.chunk_index = 0 :=
  ⟨by decide,
   chunk_index_always_zero sampleCtx sampleReq projA sampleOut rfl rfl
     (by decide) sampleResult (by decide)⟩

/-- C10 (storage spec-modelled): on a cache miss the response's
`total_found` is the number of rows the single hybrid-search call
returned — the tenant's matching chunks capped at `top_k * 2`, the
limit the orchestrator requests, not the corpus-wide match count — the
same count is stored in the written cache entry, and an immediately
following identical search hits the cache and echoes it unchanged. -/
theorem total_found_cap_and_echo (ctx : Ctx) (req : SearchRequest)
    (proj : Project) (emb : List ℚ)
    (out : SearchResponse × CacheClient × List Ev) (conn : CacheConn)
    (hproj : getProjectInfo ctx.db req.project_id = .ok proj)
    (hmiss : CacheClient.get ctx.cache
      (generate_cache_key req.project_id proj.corpus_version req.query) =
      Option.none)
    (hembed : EmbeddingClient.embed ctx.provider req.query = .ok emb)
    (hrun : SearchService.search ctx req = .ok out)
    (hconn : ctx.cache.conn = Option.some conn)
    (hreach : conn.reachable = true) :
    out.1.total_found = (hybrid_search ctx.db (ctx.fusedScore emb req.query)
      proj.id (req.top_k * 2) req.category).length ∧
    out.1.total_found = min (req.top_k * 2)
      (ctx.db.chunks.filter (fun c => decide (c.project_id = proj.id) &&
        categoryOk ctx.db c req.category)).length ∧
    CacheClient.get out.2.1
      (generate_cache_key req.project_id proj.corpus_version req.query) =
      Option.some { results := out.1.results, total_found := out.1.total_found } ∧
    SearchService.search { ctx with cache := out.2.1 } req =
      .ok ({ results := out.1.results, query := req.query,
             project_id := req.project_id, total_found := out.1.total_found,
             latency_ms := 0, cache_hit := true,
             corpus_version := proj.corpus_version }, out.2.1, []) := by
  rw [search_eq_miss ctx req proj hproj hmiss] at hrun
  have hspec := searchMiss_ok_spec _ _ _ _ _ _ hrun
  obtain ⟨emb', hembed', htf⟩ := hspec.2.2.2.2.1
  rw [hembed] at hembed'
  cases hembed'
  have hcc := hspec.2.2.2.2.2.2
  have hget : CacheClient.get out.2.1
      (generate_cache_key req.project_id proj.corpus_version req.query) =
      Option.some { results := out.1.results, total_found := out.1.total_found } := by
    rw [hcc]
    exact cache_get_after_set ctx.cache conn hconn hreach _ _
  refine ⟨htf, ?_, hget, ?_⟩
  · rw [htf, hybrid_search_length]
  · exact search_eq_hit { ctx with cache := out.2.1 } req proj
      { results := out.1.results, total_found := out.1.total_found } hproj hget

/-- Closed instantiation of `total_found_cap_and_echo` on the sample
corpus: one matching chunk, `total_found = 1`, echoed by the follow-up
cache hit. -/
theorem total_found_cap_and_echo_witness :
    sampleOut.1.total_found =
      (hybrid_search sampleCtx.db
        (sampleCtx.fusedScore (List.replicate 1024 (0 : ℚ)) "q") projA.id
        (sampleReq.top_k * 2) sampleReq.category).length ∧
    sampleOut.1.total_found = min (sampleReq.top_k * 2)
      (sampleCtx.db.chunks.filter (fun c => decide (c.project_id = projA.id) &&
        categoryOk sampleCtx.db c sampleReq.category)).length ∧
    CacheClient.get sampleOut.2.1
      (generate_cache_key sampleReq.project_id projA.corpus_version sampleReq.query) =
      Option.some { results := sampleOut.1.results,
                    total_found := sampleOut.1.total_found } ∧
    SearchService.search { sampleCtx with cache := sampleOut.2.1 } sampleReq =
      .ok ({ results := sampleOut.1.results, query := sampleReq.query,
             project_id := sampleReq.project_id,
             total_found := sampleOut.1.total_found, latency_ms := 0,
             cache_hit := true,
             corpus_version := projA.corpus_version }, sampleOut.2.1, []) :=
  total_found_cap_and_echo sampleCtx sampleReq projA (List.replicate 1024 0)
    sampleOut { reachable := true, store := [] } rfl rfl rfl (by decide) rfl rfl
